import Mathlib

/-!
# Verification of the waldur-site-agent nscale plugin

Shallow embedding of `waldur_site_agent_nscale/client.py` and
`waldur_site_agent_nscale/backend.py` (the NscaleClient HTTP client and
the NscaleBackend adapter) together with theorems settling the claims
about them.

Modelling conventions:

* A provider HTTP call that can fail with `NscaleAPIError` is modelled as
  an oracle returning `Option` (for fetches, `none` = the call raised) or
  as a boolean failure flag on the modelled server state.  Python
  exceptions that the code propagates are modelled with `Except PyErr`.
* JSON instance payloads are modelled by the `Instance` structure: the
  numeric component fields that `spec.get(k, instance.get(k, 0))` reads
  are kept as association lists `spec` and `top` over integer values
  (the data model declares `spec.cpu/memory/storage` integer-valued).
* Python `dict` construction with unique keys is modelled by association
  lists built by append; `report[k] = v` on a possibly-repeated key is
  modelled by `dictInsert`, which overwrites in place like a Python dict.
* Python `//` on `int` is floor division, hence `Int.fdiv`.
-/

namespace Nscale

/-- Python-level exceptions that cross the functions under study:
`NscaleAPIError` raised by the client layer, `BackendError` raised by the
backend adapter. -/
inductive PyErr where
  | nscaleAPI (msg : String)
  | backendErr (msg : String)
  deriving DecidableEq, Repr

/-- Error message the modelled client attaches to a failed HTTP call
(the exact text is irrelevant to every claim). -/
def apiFailMsg : String := "API request failed"

/-- Look up a string key in an association list of integer fields,
mirroring Python `d.get(k)`. -/
def lookupInt (m : List (String × Int)) (k : String) : Option Int :=
  m.lookup k

/-- A compute-instance JSON payload as read by the plugin: the `spec`
block and the top-level numeric fields (`spec.get(k, instance.get(k, 0))`
only ever touches these two), plus the resolved `metadata` identifiers
used when a `ClientResource` is built from the payload. -/
structure Instance where
  metaId : Option String
  metaName : Option String
  spec : List (String × Int)
  top : List (String × Int)
  deriving DecidableEq, Repr

/-- A compute-cluster JSON payload; only its `metadata` identifiers are
read by the operations under study. -/
structure Cluster where
  metaId : Option String
  metaName : Option String
  deriving DecidableEq, Repr

/-- `ClientResource` from the structures module of the host framework. -/
structure ClientResource where
  name : String
  description : String
  organization : String
  backend_id : String
  deriving DecidableEq, Repr

/-- `Association` from the structures module of the host framework. -/
structure Association where
  user : String
  account : String
  deriving DecidableEq, Repr

/-- `spec.get(key, instance.get(key, 0))`: a component value is read
from the instance `spec` block, falling back to the top-level field of
the same name, defaulting to `0`. -/
def instGet (inst : Instance) (key : String) : Int :=
  (lookupInt inst.spec key).getD ((lookupInt inst.top key).getD 0)

/-- `NscaleClient._extract_instance_specs`: builds the dict
`{"cpu": ..., "memory": ..., "storage": ...}` using `instGet` for each
of the three fixed keys. -/
def extract_instance_specs (inst : Instance) : List (String × Int) :=
  [("cpu", instGet inst "cpu"),
   ("memory", instGet inst "memory"),
   ("storage", instGet inst "storage")]

/-- The compute service as seen through `get_compute_instance` /
`get_compute_cluster`: a fetch yielding `none` models the underlying
HTTP call raising `NscaleAPIError`. -/
structure ComputeService where
  fetchInstance : String → Option Instance
  fetchCluster : String → Option Cluster

/-- Builds the generic `ClientResource` record from an instance payload:
`name = metadata.get("id", metadata.get("name", ""))`,
`description = metadata.get("name", "")`,
`backend_id = metadata.get("id", "")`. -/
def resourceOfInstance (projectId : String) (inst : Instance) : ClientResource :=
  { name := inst.metaId.getD (inst.metaName.getD "")
    description := inst.metaName.getD ""
    organization := projectId
    backend_id := inst.metaId.getD "" }

/-- Same record built from a cluster payload. -/
def resourceOfCluster (projectId : String) (cl : Cluster) : ClientResource :=
  { name := cl.metaId.getD (cl.metaName.getD "")
    description := cl.metaName.getD ""
    organization := projectId
    backend_id := cl.metaId.getD "" }

/-- `NscaleClient.get_resource`: try the instance lookup; on any
exception fall back to the cluster lookup; if that also fails return
`None` (absence is "not found", not an error). -/
def get_resource (projectId : String) (cs : ComputeService) (resource_id : String) :
    Option ClientResource :=
  match cs.fetchInstance resource_id with
  | some inst => some (resourceOfInstance projectId inst)
  | none =>
    match cs.fetchCluster resource_id with
    | some cl => some (resourceOfCluster projectId cl)
    | none => none

/-- `NscaleClient.get_resource_limits`: extract the three spec fields,
returning the empty dict on any fetch failure. -/
def get_resource_limits (cs : ComputeService) (resource_id : String) :
    List (String × Int) :=
  match cs.fetchInstance resource_id with
  | some inst => extract_instance_specs inst
  | none => []

/-- One element of the list `NscaleClient.get_usage_report` returns:
the dict `{"resource_id": rid, **specs}`. -/
structure UsageEntry where
  resource_id : String
  specs : List (String × Int)
  deriving DecidableEq, Repr

/-- `NscaleClient.get_usage_report`: for each requested ID, fetch the
instance and append an entry with its extracted specs; an ID whose fetch
raises is logged and skipped. -/
def client_get_usage_report (cs : ComputeService) : List String → List UsageEntry
  | [] => []
  | rid :: rest =>
    match cs.fetchInstance rid with
    | some inst =>
        { resource_id := rid, specs := extract_instance_specs inst } ::
          client_get_usage_report cs rest
    | none => client_get_usage_report cs rest

/-! ## Backend component configuration and limit/usage conversion -/

/-- One entry of the host-supplied `backend_components` mapping; only
`unit_factor` is read by the functions under study, via
`component_config.get("unit_factor", 1)` (`none` models an absent key). -/
structure ComponentConfig where
  unit_factor : Option Int
  deriving DecidableEq, Repr

/-- `component_config.get("unit_factor", 1)`. -/
def ComponentConfig.factor (cfg : ComponentConfig) : Int :=
  cfg.unit_factor.getD 1

/-- The division step of `NscaleBackend._get_usage_report`:
`backend_value // max(unit_factor, 1)` (Python floor division). -/
def usage_component_value (cfg : ComponentConfig) (backendValue : Int) : Int :=
  Int.fdiv backendValue (max cfg.factor 1)

/-- `NscaleBackend._collect_resource_limits`: for each configured
component present in the limits of the host resource, record
`int(value) * unit_factor` in the nscale dict and `int(value)` in the
waldur dict (components are iterated in declaration order; a Python dict
has unique keys, so building the dicts is appending). -/
def collect_resource_limits (components : List (String × ComponentConfig))
    (resource_limits : String → Option Int) :
    List (String × Int) × List (String × Int) :=
  components.foldl
    (fun acc kc =>
      match resource_limits kc.1 with
      | none => acc
      | some v => (acc.1 ++ [(kc.1, v * kc.2.factor)], acc.2 ++ [(kc.1, v)]))
    ([], [])

/-- The usage row `NscaleBackend._get_usage_report` builds for one
successfully fetched instance: one entry per configured component,
`spec.get(k, instance.get(k, 0)) // max(unit_factor, 1)`. -/
def backend_usage_row (components : List (String × ComponentConfig))
    (inst : Instance) : List (String × Int) :=
  components.map (fun kc => (kc.1, usage_component_value kc.2 (instGet inst kc.1)))

/-- `dict.fromkeys(self.backend_components, 0)`: the all-zero row. -/
def zero_usage_row (components : List (String × ComponentConfig)) :
    List (String × Int) :=
  components.map (fun kc => (kc.1, (0 : Int)))

/-- Python `report[k] = v` on an association-list model of a dict:
overwrite in place when the key exists, append otherwise. -/
def dictInsert {α : Type} (m : List (String × α)) (k : String) (v : α) :
    List (String × α) :=
  if m.any (fun p => p.1 == k) then
    m.map (fun p => if p.1 == k then (k, v) else p)
  else m ++ [(k, v)]

/-- The row recorded for one requested backend ID: on a successful fetch
the converted component values, on a raised fetch the all-zero row —
always under the single key `"TOTAL_ACCOUNT_USAGE"`. -/
def report_row (components : List (String × ComponentConfig))
    (cs : ComputeService) (rid : String) : List (String × List (String × Int)) :=
  match cs.fetchInstance rid with
  | some inst => [("TOTAL_ACCOUNT_USAGE", backend_usage_row components inst)]
  | none => [("TOTAL_ACCOUNT_USAGE", zero_usage_row components)]

/-- `NscaleBackend._get_usage_report`: builds the report dict by
inserting one row per requested backend ID, zero-filling the IDs whose
fetch raised. -/
def backend_get_usage_report (components : List (String × ComponentConfig))
    (cs : ComputeService) (resource_backend_ids : List String) :
    List (String × List (String × List (String × Int))) :=
  resource_backend_ids.foldl
    (fun report rid => dictInsert report rid (report_row components cs rid)) []

/-! ## Identity service model (users, groups, associations) -/

/-- An identity-service user: the server-assigned `metadata.id` and the
`spec.subject` username. -/
structure User where
  id : String
  subject : String
  deriving DecidableEq, Repr

/-- An identity-service group: `metadata.id`, `metadata.name`, and the
`spec.userIds` membership list. -/
structure Group where
  id : String
  name : String
  userIds : List String
  deriving DecidableEq, Repr

/-- The identity service reached through the typed endpoint methods:
the stored users and groups, plus one failure flag per endpoint
(`true` = the HTTP call raises `NscaleAPIError`). -/
structure IdServer where
  users : List User
  groups : List Group
  failListUsers : Bool := false
  failCreateUser : Bool := false
  failListGroups : Bool := false
  failCreateGroup : Bool := false
  failUpdateGroup : Bool := false
  failGetUser : String → Bool := fun _ => false

/-- The identity HTTP calls the client can issue; recorded so theorems
can speak about which calls an operation performs. -/
inductive IdCall where
  | listUsers
  | createUser
  | listGroups
  | createGroup
  | updateGroup
  | getUser (uid : String)
  deriving DecidableEq, Repr

/-- `list_organization_users`. -/
def listOrgUsers (s : IdServer) : Except PyErr (List User) :=
  if s.failListUsers then .error (.nscaleAPI apiFailMsg) else .ok s.users

/-- `create_user({"spec": {"subject": subject, "state": "active"}})`:
the server assigns the fresh id `genUid` and stores the user; the
created user is returned. -/
def createUserOp (s : IdServer) (genUid subject : String) :
    Except PyErr (User × IdServer) :=
  if s.failCreateUser then .error (.nscaleAPI apiFailMsg)
  else
    let u : User := ⟨genUid, subject⟩
    .ok (u, { s with users := s.users ++ [u] })

/-- `list_groups`. -/
def listGroupsOp (s : IdServer) : Except PyErr (List Group) :=
  if s.failListGroups then .error (.nscaleAPI apiFailMsg) else .ok s.groups

/-- `create_group({"metadata": {"name": name}, "spec": {"userIds": userIds}})`:
the server assigns the fresh id `genGid` and stores the group. -/
def createGroupOp (s : IdServer) (genGid name : String) (userIds : List String) :
    Except PyErr (Group × IdServer) :=
  if s.failCreateGroup then .error (.nscaleAPI apiFailMsg)
  else
    let g : Group := ⟨genGid, name, userIds⟩
    .ok (g, { s with groups := s.groups ++ [g] })

/-- `update_group(gid, {"spec": {"userIds": userIds}})`: replaces the
membership list of the group with matching id. -/
def updateGroupOp (s : IdServer) (gid : String) (userIds : List String) :
    Except PyErr IdServer :=
  if s.failUpdateGroup then .error (.nscaleAPI apiFailMsg)
  else
    .ok { s with
          groups := s.groups.map
            (fun g => if g.id == gid then { g with userIds := userIds } else g) }

/-- `get_user(uid)`: a missing user is a 404, i.e. an `NscaleAPIError`. -/
def getUserOp (s : IdServer) (uid : String) : Except PyErr User :=
  if s.failGetUser uid then .error (.nscaleAPI apiFailMsg)
  else
    match s.users.find? (fun u => u.id == uid) with
    | some u => .ok u
    | none => .error (.nscaleAPI apiFailMsg)

/-- Python `s.endswith(t)`, on the underlying character lists. -/
def strEndsWith (s t : String) : Bool :=
  t.data.isSuffixOf s.data

/-- `NscaleClient._find_user_by_username`: scans the organization
users for `spec.subject == username`; a failing list call is caught
(`NscaleAPIError`), logged, and turned into `None`. -/
def find_user_by_username (s : IdServer) (username : String) : Option User :=
  match listOrgUsers s with
  | .error _ => none
  | .ok users => users.find? (fun u => u.subject == username)

/-- `NscaleClient._find_project_group`: scans the groups for
`metadata.name.endswith(resource_id)`; a failing list call is caught,
logged, and turned into `None`. -/
def find_project_group (s : IdServer) (resource_id : String) : Option Group :=
  match listGroupsOp s with
  | .error _ => none
  | .ok groups => groups.find? (fun g => strEndsWith g.name resource_id)

/-- `NscaleClient.get_association`: `None` when the identity service is
unconfigured (`idsrv = none`), when the user or group cannot be found,
or when the user id is not in the membership list of the group. Also
returns the identity calls performed. -/
def get_association (idsrv : Option IdServer) (user resource_id : String) :
    Option Association × List IdCall :=
  match idsrv with
  | none => (none, [])
  | some s =>
    match find_user_by_username s user with
    | none => (none, [IdCall.listUsers])
    | some u =>
      match find_project_group s resource_id with
      | none => (none, [IdCall.listUsers, IdCall.listGroups])
      | some g =>
        if g.userIds.contains u.id then
          (some ⟨user, resource_id⟩, [IdCall.listUsers, IdCall.listGroups])
        else (none, [IdCall.listUsers, IdCall.listGroups])

/-- The group-handling second half of `NscaleClient.create_association`,
run once the nscale user is known: create the project group with the
single user if absent, otherwise append the user id if not already
present. Errors of `create_group` / `update_group` are not caught. -/
def create_association_with_user (genGid : String) (s : IdServer) (u : User)
    (username resource_id : String) (calls : List IdCall) :
    Except PyErr (String × IdServer × List IdCall) :=
  match find_project_group s resource_id with
  | none =>
    match createGroupOp s genGid resource_id [u.id] with
    | .error e => .error e
    | .ok (_, s1) =>
        .ok (username, s1, calls ++ [IdCall.listGroups, IdCall.createGroup])
  | some g =>
    if g.userIds.contains u.id then .ok (username, s, calls ++ [IdCall.listGroups])
    else
      match updateGroupOp s g.id (g.userIds ++ [u.id]) with
      | .error e => .error e
      | .ok s1 =>
          .ok (username, s1, calls ++ [IdCall.listGroups, IdCall.updateGroup])

/-- `NscaleClient.create_association`: no-op sentinel (the username)
when the identity service is unconfigured; otherwise find-or-create the
user, then ensure the project group contains it. The error of a failing
`create_user` is not caught. Returns the sentinel, the updated identity
state, and the identity calls performed. -/
def create_association (genUid genGid : String) (idsrv : Option IdServer)
    (username resource_id : String) :
    Except PyErr (String × Option IdServer × List IdCall) :=
  match idsrv with
  | none => .ok (username, none, [])
  | some s =>
    match find_user_by_username s username with
    | some u =>
      match create_association_with_user genGid s u username resource_id
          [IdCall.listUsers] with
      | .error e => .error e
      | .ok (r, s1, calls) => .ok (r, some s1, calls)
    | none =>
      match createUserOp s genUid username with
      | .error e => .error e
      | .ok (u, s1) =>
        match create_association_with_user genGid s1 u username resource_id
            [IdCall.listUsers, IdCall.createUser] with
        | .error e => .error e
        | .ok (r, s2, calls) => .ok (r, some s2, calls)

/-- `NscaleClient.delete_association`: no-op sentinel when the identity
service is unconfigured or the user/group cannot be found; removes the
first occurrence of the user id when present. The error of a failing
`update_group` is not caught. -/
def delete_association (idsrv : Option IdServer) (username resource_id : String) :
    Except PyErr (String × Option IdServer × List IdCall) :=
  match idsrv with
  | none => .ok (username, none, [])
  | some s =>
    match find_user_by_username s username with
    | none => .ok (username, some s, [IdCall.listUsers])
    | some u =>
      match find_project_group s resource_id with
      | none => .ok (username, some s, [IdCall.listUsers, IdCall.listGroups])
      | some g =>
        if g.userIds.contains u.id then
          match updateGroupOp s g.id (g.userIds.erase u.id) with
          | .error e => .error e
          | .ok s1 =>
              .ok (username, some s1,
                   [IdCall.listUsers, IdCall.listGroups, IdCall.updateGroup])
        else .ok (username, some s, [IdCall.listUsers, IdCall.listGroups])

/-- `NscaleClient.list_resource_users`: empty when the identity service
is unconfigured or the group is missing; otherwise resolves each member
id to its `spec.subject`, skipping ids whose `get_user` raises and empty
subjects. -/
def list_resource_users (idsrv : Option IdServer) (resource_id : String) :
    List String × List IdCall :=
  match idsrv with
  | none => ([], [])
  | some s =>
    match find_project_group s resource_id with
    | none => ([], [IdCall.listGroups])
    | some g =>
      g.userIds.foldl
        (fun acc uid =>
          match getUserOp s uid with
          | .error _ => (acc.1, acc.2 ++ [IdCall.getUser uid])
          | .ok u =>
            (if u.subject == "" then acc.1 else acc.1 ++ [u.subject],
             acc.2 ++ [IdCall.getUser uid]))
        ([], [IdCall.listGroups])

/-! ## Backend creation and deletion -/

/-- The backend-level calls recorded by the creation/deletion models. -/
inductive BackendCall where
  | getResource (id : String)
  | createInstance
  | createCluster
  | deleteCluster (id : String)
  | superDelete
  deriving DecidableEq, Repr

/-- `NscaleBackend._create_instance_resource`, with the payload-building
elided and the `create_compute_instance` call abstracted into its
outcome: only `NscaleAPIError` is caught and re-raised as
`BackendError` with context. -/
def create_instance_resource (createOutcome : Except PyErr Unit) :
    Except PyErr Bool :=
  match createOutcome with
  | .ok _ => .ok true
  | .error (.nscaleAPI m) =>
      .error (.backendErr ("Failed to create compute instance: " ++ m))
  | .error e => .error e

/-- `NscaleBackend._create_cluster_resource`, abstracted the same way. -/
def create_cluster_resource (createOutcome : Except PyErr Unit) :
    Except PyErr Bool :=
  match createOutcome with
  | .ok _ => .ok true
  | .error (.nscaleAPI m) =>
      .error (.backendErr ("Failed to create cluster: " ++ m))
  | .error e => .error e

/-- `NscaleBackend._create_backend_resource`: returns success without
any create call when `client.get_resource` reports the backend id as
existing; otherwise dispatches on `resource_type` ("cluster" vs. the
instance default). Also returns the calls performed. -/
def create_backend_resource (resource_type projectId : String)
    (cs : ComputeService)
    (createInstanceOutcome createClusterOutcome : Except PyErr Unit)
    (resource_backend_id : String) :
    Except PyErr Bool × List BackendCall :=
  match get_resource projectId cs resource_backend_id with
  | some _ => (.ok true, [BackendCall.getResource resource_backend_id])
  | none =>
    if resource_type == "cluster" then
      (create_cluster_resource createClusterOutcome,
       [BackendCall.getResource resource_backend_id, BackendCall.createCluster])
    else
      (create_instance_resource createInstanceOutcome,
       [BackendCall.getResource resource_backend_id, BackendCall.createInstance])

/-- The default whitespace characters of Python `str.strip` (ASCII). -/
def pyWhitespace : List Char :=
  [' ', '\t', '\n', '\r', Char.ofNat 11, Char.ofNat 12]

/-- `not s or not s.strip()`: the string is empty or whitespace-only. -/
def pyIsBlank (s : String) : Bool :=
  s.data.all (fun c => pyWhitespace.contains c)

/-- `NscaleBackend.delete_resource`: for a cluster-typed backend, a
blank backend id skips deletion entirely (zero provider calls); a
non-blank id issues the cluster delete, whose `NscaleAPIError` is
logged and swallowed. Any other resource type delegates to the base
class, abstracted into `superOutcome`. -/
def backend_delete_resource (resource_type : String)
    (clusterDeleteFails : String → Bool)
    (superOutcome : Except PyErr Unit)
    (backend_id : String) :
    Except PyErr Unit × List BackendCall :=
  if resource_type == "cluster" then
    if pyIsBlank backend_id then (.ok (), [])
    else
      let callResult : Except PyErr Unit :=
        if clusterDeleteFails backend_id then .error (.nscaleAPI apiFailMsg)
        else .ok ()
      match callResult with
      | .ok _ => (.ok (), [BackendCall.deleteCluster backend_id])
      | .error _ => (.ok (), [BackendCall.deleteCluster backend_id])
  else (superOutcome, [BackendCall.superDelete])

/-! ## Concrete data used by witnesses and counterexamples -/

/-- The spec example instance: `{"spec": {"cpu": 4, "memory": 8192,
"storage": 100}}`. -/
def demoInstA : Instance :=
  ⟨some "a", some "a", [("cpu", 4), ("memory", 8192), ("storage", 100)], []⟩

/-- Components `cpu`, `memory` (`unit_factor = 1024`), `storage`. -/
def demoComponents : List (String × ComponentConfig) :=
  [("cpu", ⟨none⟩), ("memory", ⟨some 1024⟩), ("storage", ⟨none⟩)]

/-- A compute service where only `"a"` resolves; every other fetch
raises. -/
def demoCompute : ComputeService :=
  { fetchInstance := fun r => if r == "a" then some demoInstA else none
    fetchCluster := fun _ => none }

/-- Identity server holding one user and no groups, all calls healthy. -/
def demoIdServer : IdServer :=
  { users := [⟨"u1", "alice"⟩], groups := [] }

/-- The state `demoIdServer` reaches after
`create_association "u1" "g1" … "alice" "res-1"`. -/
def demoIdServerAfter : IdServer :=
  { users := [⟨"u1", "alice"⟩], groups := [⟨"g1", "res-1", ["u1"]⟩] }

/-- Identity server on which `create_user` raises (and the user list is
empty, so `create_association` must attempt the creation). -/
def cexCreateServer : IdServer :=
  { users := [], groups := [], failCreateUser := true }

/-- Identity server on which `update_group` raises while user and group
resolve and the user is a member. -/
def cexDeleteServer : IdServer :=
  { users := [⟨"u1", "alice"⟩], groups := [⟨"g1", "proj-res-1", ["u1"]⟩]
    failUpdateGroup := true }

/-- Identity server whose user-list call raises. -/
def cexListFailServer : IdServer :=
  { users := [], groups := [], failListUsers := true, failCreateUser := true }

/-- Identity server whose user-list call raises while every other
endpoint is healthy. -/
def cexLookupOnlyFailServer : IdServer :=
  { users := [], groups := [], failListUsers := true }

/-- Identity server whose group-list call raises; the user resolves. -/
def cexGroupsFailServer : IdServer :=
  { users := [⟨"u1", "alice"⟩], groups := [], failListGroups := true }

/-- Identity server on which `create_group` raises while the user
resolves and no project group exists. -/
def cexCreateGroupFailServer : IdServer :=
  { users := [⟨"u1", "alice"⟩], groups := [], failCreateGroup := true }

/-- Identity server on which `update_group` raises while the user
resolves and the project group exists without that user. -/
def cexUpdateInCreateServer : IdServer :=
  { users := [⟨"u1", "alice"⟩], groups := [⟨"g1", "proj-res-1", ["u2"]⟩]
    failUpdateGroup := true }

/-! ## Theorems -/

/-- C7: for every resource ID for which both the instance lookup and the
fallback cluster lookup fail, `get_resource` returns `none` (the value
modelling Python `None`, "not found") and never raises — the return
type `Option ClientResource` has no error alternative, so absence is
represented as not-found, not as an error. -/
theorem get_resource_not_found (projectId : String) (cs : ComputeService)
    (resource_id : String)
    (hinst : cs.fetchInstance resource_id = none)
    (hcl : cs.fetchCluster resource_id = none) :
    get_resource projectId cs resource_id = none := by
  simp [get_resource, hinst, hcl]

/-- Witness for C7: a provider on which every lookup raises. -/
theorem get_resource_not_found_witness :
    get_resource "proj" ⟨fun _ => none, fun _ => none⟩ "missing-id" = none :=
  get_resource_not_found "proj" ⟨fun _ => none, fun _ => none⟩ "missing-id" rfl rfl

/-- C8: with no identity API URL configured (`idsrv = none`), for every
username and resource ID, `list_resource_users` returns the empty list,
`get_association` returns `none`, and `create_association` /
`delete_association` return the username sentinel — each with an empty
list of identity calls and without raising. -/
theorem identity_unconfigured_noop (gu gg user resource_id : String) :
    get_association none user resource_id = (none, [])
    ∧ create_association gu gg none user resource_id = .ok (user, none, [])
    ∧ delete_association none user resource_id = .ok (user, none, [])
    ∧ list_resource_users none resource_id = ([], []) :=
  ⟨rfl, rfl, rfl, rfl⟩

/-- C9: on a cluster-typed backend, `delete_resource` with a blank
(empty or whitespace-only) backend ID performs zero provider calls and
returns without error; with a non-blank ID it performs exactly the
cluster-delete call and still returns without error whether or not the
provider call fails — the `NscaleAPIError` is swallowed. -/
theorem delete_resource_blank_guard (clusterDeleteFails : String → Bool)
    (superOutcome : Except PyErr Unit) (backend_id : String) :
    (pyIsBlank backend_id = true →
      backend_delete_resource "cluster" clusterDeleteFails superOutcome backend_id
        = (.ok (), []))
    ∧ (pyIsBlank backend_id = false →
      backend_delete_resource "cluster" clusterDeleteFails superOutcome backend_id
        = (.ok (), [BackendCall.deleteCluster backend_id])) := by
  constructor <;> intro h <;>
    cases hf : clusterDeleteFails backend_id <;>
      simp [backend_delete_resource, h, hf]

/-- Witness for C9: whitespace-only id `"  "` does nothing even when
the provider call would fail; a non-blank id issues exactly the delete
call and the failure is swallowed. -/
theorem delete_resource_blank_guard_witness :
    backend_delete_resource "cluster" (fun _ => true) (.ok ()) "  " = (.ok (), [])
    ∧ backend_delete_resource "cluster" (fun _ => true) (.ok ()) "cl-1"
        = (.ok (), [BackendCall.deleteCluster "cl-1"]) :=
  ⟨(delete_resource_blank_guard (fun _ => true) (.ok ()) "  ").1 (by decide),
   (delete_resource_blank_guard (fun _ => true) (.ok ()) "cl-1").2 (by decide)⟩

/-- C10: on a successful instance fetch, `get_resource_limits` returns
a mapping with exactly the keys `cpu`, `memory`, `storage` (in that
order); a component absent from both the spec block and the top level is
reported as `0`, never omitted; on any fetch failure the result is the
empty mapping — so the result is never a partial mapping. -/
theorem get_resource_limits_never_partial (cs : ComputeService)
    (resource_id : String) :
    (∀ inst, cs.fetchInstance resource_id = some inst →
      (get_resource_limits cs resource_id).map Prod.fst
        = ["cpu", "memory", "storage"]
      ∧ ∀ k, k ∈ (["cpu", "memory", "storage"] : List String) →
          lookupInt inst.spec k = none → lookupInt inst.top k = none →
          (get_resource_limits cs resource_id).lookup k = some 0)
    ∧ (cs.fetchInstance resource_id = none →
        get_resource_limits cs resource_id = []) := by
  constructor
  · intro inst hfetch
    constructor
    · simp [get_resource_limits, hfetch, extract_instance_specs]
    · intro k hk hspec htop
      simp only [List.mem_cons, List.not_mem_nil, or_false] at hk
      rcases hk with h | h | h <;> subst h <;>
        simp_all [get_resource_limits, hfetch, extract_instance_specs,
          instGet, List.lookup]
  · intro hfetch
    simp [get_resource_limits, hfetch]

/-- Witness for C10: an instance whose spec lacks `memory` (top level
supplies it) and lacks `storage` entirely; the report still has all
three keys and reports the absent component as `0`. -/
theorem get_resource_limits_never_partial_witness :
    ((get_resource_limits
        ⟨fun _ => some ⟨some "i1", some "n1", [("cpu", 4)], [("memory", 8)]⟩,
         fun _ => none⟩ "i1").map Prod.fst = ["cpu", "memory", "storage"])
    ∧ (get_resource_limits
        ⟨fun _ => some ⟨some "i1", some "n1", [("cpu", 4)], [("memory", 8)]⟩,
         fun _ => none⟩ "i1").lookup "storage" = some 0 := by
  have h := get_resource_limits_never_partial
    ⟨fun _ => some ⟨some "i1", some "n1", [("cpu", 4)], [("memory", 8)]⟩,
     fun _ => none⟩ "i1"
  have h1 := h.1 ⟨some "i1", some "n1", [("cpu", 4)], [("memory", 8)]⟩ rfl
  exact ⟨h1.1, h1.2 "storage" (by decide) (by decide) (by decide)⟩

/-- C3: `_create_backend_resource` is idempotent — when
`client.get_resource` reports the backend ID as existing it performs no
create call and returns success — and on the create path a provider
failure of the API-error kind is re-raised as a `BackendError` with
context rather than swallowed, for both the cluster and the instance
resource types. -/
theorem create_backend_idempotent_fatal (resource_type projectId : String)
    (cs : ComputeService) (cio cco : Except PyErr Unit)
    (resource_backend_id : String) :
    ((get_resource projectId cs resource_backend_id).isSome = true →
      create_backend_resource resource_type projectId cs cio cco
          resource_backend_id
        = (.ok true, [BackendCall.getResource resource_backend_id]))
    ∧ (∀ m, get_resource projectId cs resource_backend_id = none →
        ((resource_type == "cluster") = true →
          cco = .error (.nscaleAPI m) →
          (create_backend_resource resource_type projectId cs cio cco
              resource_backend_id).1
            = .error (.backendErr ("Failed to create cluster: " ++ m)))
        ∧ ((resource_type == "cluster") = false →
          cio = .error (.nscaleAPI m) →
          (create_backend_resource resource_type projectId cs cio cco
              resource_backend_id).1
            = .error
                (.backendErr ("Failed to create compute instance: " ++ m)))) := by
  constructor
  · intro h
    rcases hr : get_resource projectId cs resource_backend_id with _ | r
    · rw [hr] at h; simp at h
    · simp [create_backend_resource, hr]
  · intro m hnone
    constructor
    · intro hty hcco
      simp [create_backend_resource, hnone, hty, hcco, create_cluster_resource]
    · intro hty hcio
      simp [create_backend_resource, hnone, hty, hcio, create_instance_resource]

/-- Witness for C3: an existing resource short-circuits to success with
only the lookup call; a missing resource whose instance create raises
the API error surfaces as a `BackendError`. -/
theorem create_backend_idempotent_fatal_witness :
    (create_backend_resource "instance" "proj"
        ⟨fun _ => some ⟨some "i1", some "n1", [], []⟩, fun _ => none⟩
        (.ok ()) (.ok ()) "i1"
      = (.ok true, [BackendCall.getResource "i1"]))
    ∧ (create_backend_resource "instance" "proj"
        ⟨fun _ => none, fun _ => none⟩
        (.error (.nscaleAPI "boom")) (.ok ()) "i2").1
      = .error (.backendErr ("Failed to create compute instance: " ++ "boom")) :=
  ⟨(create_backend_idempotent_fatal "instance" "proj"
      ⟨fun _ => some ⟨some "i1", some "n1", [], []⟩, fun _ => none⟩
      (.ok ()) (.ok ()) "i1").1 (by decide),
   ((create_backend_idempotent_fatal "instance" "proj"
      ⟨fun _ => none, fun _ => none⟩
      (.error (.nscaleAPI "boom")) (.ok ()) "i2").2 "boom" rfl).2
     (by decide) rfl⟩

/-- C4: `NscaleClient.get_usage_report` keeps exactly the IDs whose
instance fetch succeeds — one entry per success, carrying the
resource id and its extracted cpu/memory/storage allocation — and
silently omits (neither zero-fills nor raises for) every ID whose fetch
fails; its length is the number of successful fetches. -/
theorem client_usage_omits_failures (cs : ComputeService) (ids : List String) :
    client_get_usage_report cs ids
      = ids.filterMap (fun r => (cs.fetchInstance r).map
          (fun i => { resource_id := r, specs := extract_instance_specs i }))
    ∧ (client_get_usage_report cs ids).length
        = ids.countP (fun r => (cs.fetchInstance r).isSome)
    ∧ (∀ e, e ∈ client_get_usage_report cs ids →
        ∃ i, cs.fetchInstance e.resource_id = some i
          ∧ e.specs = extract_instance_specs i) := by
  have hmain : client_get_usage_report cs ids
      = ids.filterMap (fun r => (cs.fetchInstance r).map
          (fun i => { resource_id := r, specs := extract_instance_specs i })) := by
    induction ids with
    | nil => rfl
    | cons r rest ih =>
      cases h : cs.fetchInstance r <;>
        simp [client_get_usage_report, h, ih, List.filterMap_cons]
  refine ⟨hmain, ?_, ?_⟩
  · rw [hmain]; clear hmain
    induction ids with
    | nil => rfl
    | cons r rest ih =>
      cases h : cs.fetchInstance r <;>
        simp [List.filterMap_cons, h, List.countP_cons, ih]
  · intro e he
    rw [hmain] at he
    rcases List.mem_filterMap.mp he with ⟨r, _, hr⟩
    cases h : cs.fetchInstance r with
    | none => rw [h] at hr; simp at hr
    | some i =>
      rw [h] at hr
      have he2 : ({ resource_id := r, specs := extract_instance_specs i } : UsageEntry)
          = e := Option.some.inj hr
      subst he2
      exact ⟨i, h, rfl⟩

/-- Witness for C4: `["a", "b"]` where `"a"` succeeds and `"b"` raises
yields a single entry, for `"a"`. -/
theorem client_usage_omits_failures_witness :
    client_get_usage_report
        ⟨fun r => if r == "a" then some ⟨some "a", some "a", [("cpu", 4)], []⟩
                  else none,
         fun _ => none⟩ ["a", "b"]
      = (["a", "b"].filterMap (fun r =>
          ((if r == "a" then some (⟨some "a", some "a", [("cpu", 4)], []⟩ : Instance)
            else none)).map
            (fun i => { resource_id := r, specs := extract_instance_specs i }))) :=
  (client_usage_omits_failures
    ⟨fun r => if r == "a" then some ⟨some "a", some "a", [("cpu", 4)], []⟩
              else none,
     fun _ => none⟩ ["a", "b"]).1

/-- `_collect_resource_limits` unfolded: component order is preserved
and each configured component present in the host limits contributes
one provider-native and one host-native entry. -/
theorem collect_resource_limits_eq (components : List (String × ComponentConfig))
    (resource_limits : String → Option Int) :
    collect_resource_limits components resource_limits
      = (components.filterMap (fun kc => (resource_limits kc.1).map
            (fun v => (kc.1, v * kc.2.factor))),
         components.filterMap (fun kc => (resource_limits kc.1).map
            (fun v => (kc.1, v)))) := by
  have haux : ∀ (cs : List (String × ComponentConfig))
      (acc : List (String × Int) × List (String × Int)),
      cs.foldl (fun acc kc =>
          match resource_limits kc.1 with
          | none => acc
          | some v => (acc.1 ++ [(kc.1, v * kc.2.factor)], acc.2 ++ [(kc.1, v)]))
        acc
      = (acc.1 ++ cs.filterMap (fun kc => (resource_limits kc.1).map
            (fun v => (kc.1, v * kc.2.factor))),
         acc.2 ++ cs.filterMap (fun kc => (resource_limits kc.1).map
            (fun v => (kc.1, v)))) := by
    intro cs
    induction cs with
    | nil => intro acc; simp
    | cons kc rest ih =>
      intro acc
      cases h : resource_limits kc.1 <;>
        simp [List.filterMap_cons, h, List.foldl_cons, ih]
  simpa using haux components ([], [])

/-- Looking up a component key in a filterMap-built dict whose keys are
drawn without repetition from the component list. -/
theorem lookup_filterMap_component
    (g : String × ComponentConfig → Int → Int)
    (components : List (String × ComponentConfig))
    (resource_limits : String → Option Int) (k : String)
    (cfg : ComponentConfig) (v : Int)
    (hmem : (k, cfg) ∈ components)
    (hnd : (components.map Prod.fst).Nodup)
    (hv : resource_limits k = some v) :
    (components.filterMap (fun kc => (resource_limits kc.1).map
        (fun w => (kc.1, g kc w)))).lookup k = some (g (k, cfg) v) := by
  induction components with
  | nil => cases hmem
  | cons kc rest ih =>
    by_cases hk : kc.1 = k
    · have hrest : k ∉ rest.map Prod.fst := by
        simp only [List.map_cons, List.nodup_cons] at hnd
        exact hk ▸ hnd.1
      have hkc : kc = (k, cfg) := by
        rcases List.mem_cons.mp hmem with h | h
        · exact h.symm
        · exact absurd (List.mem_map_of_mem Prod.fst h) hrest
      subst hkc
      simp [List.filterMap_cons, hv, List.lookup]
    · have hmem' : (k, cfg) ∈ rest := by
        rcases List.mem_cons.mp hmem with h | h
        · exact absurd (congrArg Prod.fst h.symm) hk
        · exact h
      have hnd' : (rest.map Prod.fst).Nodup := by
        simp only [List.map_cons, List.nodup_cons] at hnd
        exact hnd.2
      have hne : (k == kc.1) = false := by
        simp [beq_eq_false_iff_ne]
        exact fun h => hk h.symm
      cases h : resource_limits kc.1 <;>
        simp [List.filterMap_cons, h, List.lookup, hne, ih hmem' hnd']

/-- C2: for a component declared with `unit_factor = f` and a
host-native limit value `v`, `_collect_resource_limits` records the
provider-native value `v * f` and the original host-native value `v`,
both keyed by the component; and for every integer `f ≥ 1` the
floor division `(v * f) // max(f, 1)` of the usage path recovers `v` exactly. -/
theorem collect_limits_roundtrip (components : List (String × ComponentConfig))
    (resource_limits : String → Option Int) (k : String)
    (cfg : ComponentConfig) (v : Int)
    (hmem : (k, cfg) ∈ components)
    (hnd : (components.map Prod.fst).Nodup)
    (hv : resource_limits k = some v)
    (hf : 1 ≤ cfg.factor) :
    ((collect_resource_limits components resource_limits).1.lookup k
        = some (v * cfg.factor))
    ∧ ((collect_resource_limits components resource_limits).2.lookup k = some v)
    ∧ usage_component_value cfg (v * cfg.factor) = v := by
  rw [collect_resource_limits_eq]
  refine ⟨?_, ?_, ?_⟩
  · exact lookup_filterMap_component (fun kc w => w * kc.2.factor)
      components resource_limits k cfg v hmem hnd hv
  · exact lookup_filterMap_component (fun _ w => w)
      components resource_limits k cfg v hmem hnd hv
  · unfold usage_component_value
    rw [max_eq_left hf]
    exact Int.mul_fdiv_cancel v (by omega)

/-- Witness for C2: `memory` with `unit_factor = 1024` and host value
`8`: both dicts are recorded and `(8 * 1024) // 1024 = 8`. -/
theorem collect_limits_roundtrip_witness :
    ((collect_resource_limits
        [("cpu", ⟨none⟩), ("memory", ⟨some 1024⟩)]
        (fun k => if k == "memory" then some 8 else none)).1.lookup "memory"
      = some (8 * (1024 : Int)))
    ∧ ((collect_resource_limits
        [("cpu", ⟨none⟩), ("memory", ⟨some 1024⟩)]
        (fun k => if k == "memory" then some 8 else none)).2.lookup "memory"
      = some 8)
    ∧ usage_component_value ⟨some 1024⟩ (8 * 1024) = 8 :=
  collect_limits_roundtrip [("cpu", ⟨none⟩), ("memory", ⟨some 1024⟩)]
    (fun k => if k == "memory" then some 8 else none) "memory" ⟨some 1024⟩ 8
    (by decide) (by decide) rfl (by decide)

/-! ### dict-insertion lemmas for the usage report -/

theorem lookup_self_ov {α : Type} (m : List (String × α)) (k : String)
    (v : α) (h : m.any (fun p => p.1 == k) = true) :
    (m.map (fun p => if p.1 == k then (k, v) else p)).lookup k = some v := by
  induction m with
  | nil => simp at h
  | cons p rest ih =>
    obtain ⟨a, b⟩ := p
    simp only [List.any_cons, Bool.or_eq_true] at h
    simp only [List.map_cons]
    by_cases hp : a = k
    · have hb : (a == k) = true := beq_iff_eq.mpr hp
      rw [if_pos hb]
      simp [List.lookup]
    · have hb : (a == k) = false := beq_eq_false_iff_ne.mpr hp
      rw [if_neg (by simp [hb])]
      have h' : rest.any (fun p => p.1 == k) = true := by
        rcases h with h | h
        · rw [hb] at h; cases h
        · exact h
      have hkb : (k == a) = false := beq_eq_false_iff_ne.mpr (fun he => hp he.symm)
      simp only [List.lookup, hkb]
      exact ih h'

theorem lookup_self_app {α : Type} (m : List (String × α)) (k : String)
    (v : α) (h : m.any (fun p => p.1 == k) = false) :
    (m ++ [(k, v)]).lookup k = some v := by
  induction m with
  | nil => simp [List.lookup]
  | cons p rest ih =>
    obtain ⟨a, b⟩ := p
    simp only [List.any_cons, Bool.or_eq_false_iff] at h
    have hkb : (k == a) = false := by
      have := h.1
      simp only [beq_eq_false_iff_ne] at this ⊢
      exact fun he => this he.symm
    simp only [List.cons_append, List.lookup, hkb]
    exact ih h.2

theorem lookup_ne_ov {α : Type} (m : List (String × α)) (k r : String)
    (v : α) (hr : r ≠ k) :
    (m.map (fun p => if p.1 == k then (k, v) else p)).lookup r = m.lookup r := by
  induction m with
  | nil => rfl
  | cons p rest ih =>
    obtain ⟨a, b⟩ := p
    simp only [List.map_cons]
    by_cases hp : a = k
    · have hb : (a == k) = true := beq_iff_eq.mpr hp
      rw [if_pos hb]
      have h1 : (r == k) = false := beq_eq_false_iff_ne.mpr hr
      have h2 : (r == a) = false := beq_eq_false_iff_ne.mpr (hp ▸ hr)
      simp only [List.lookup, h1, h2]
      exact ih
    · have hb : (a == k) = false := beq_eq_false_iff_ne.mpr hp
      rw [if_neg (by simp [hb])]
      cases hq : (r == a) with
      | true => simp only [List.lookup, hq]
      | false =>
        simp only [List.lookup, hq]
        exact ih

theorem lookup_ne_app {α : Type} (m : List (String × α)) (k r : String)
    (v : α) (hr : r ≠ k) :
    (m ++ [(k, v)]).lookup r = m.lookup r := by
  induction m with
  | nil =>
    have h1 : (r == k) = false := beq_eq_false_iff_ne.mpr hr
    simp [List.lookup, h1]
  | cons p rest ih =>
    obtain ⟨a, b⟩ := p
    cases hq : (r == a) with
    | true => simp only [List.cons_append, List.lookup, hq]
    | false =>
      simp only [List.cons_append, List.lookup, hq]
      exact ih

theorem dictInsert_lookup_self {α : Type} (m : List (String × α)) (k : String)
    (v : α) : (dictInsert m k v).lookup k = some v := by
  unfold dictInsert
  cases h : m.any (fun p => p.1 == k) with
  | true => rw [if_pos rfl]; exact lookup_self_ov m k v h
  | false => rw [if_neg Bool.false_ne_true]; exact lookup_self_app m k v h

theorem dictInsert_lookup_ne {α : Type} (m : List (String × α)) (k r : String)
    (v : α) (hr : r ≠ k) : (dictInsert m k v).lookup r = m.lookup r := by
  unfold dictInsert
  cases h : m.any (fun p => p.1 == k) with
  | true => rw [if_pos rfl]; exact lookup_ne_ov m k r v hr
  | false => rw [if_neg Bool.false_ne_true]; exact lookup_ne_app m k r v hr

theorem dictInsert_map_fst {α : Type} (m : List (String × α)) (k : String)
    (v : α) :
    (dictInsert m k v).map Prod.fst
      = if k ∈ m.map Prod.fst then m.map Prod.fst
        else m.map Prod.fst ++ [k] := by
  unfold dictInsert
  have hcond : (m.any (fun p => p.1 == k)) = true ↔ k ∈ m.map Prod.fst := by
    simp [List.any_eq_true, List.mem_map]
  cases h : m.any (fun p => p.1 == k) with
  | true =>
    rw [if_pos rfl, if_pos (hcond.mp h), List.map_map]
    apply List.map_congr_left
    intro p _
    by_cases hp : p.1 = k
    · have hb : (p.1 == k) = true := beq_iff_eq.mpr hp
      rw [Function.comp_apply, if_pos hb]
      exact hp.symm
    · have hb : (p.1 == k) = false := beq_eq_false_iff_ne.mpr hp
      rw [Function.comp_apply, if_neg (by simp [hb])]
  | false =>
    rw [if_neg Bool.false_ne_true,
      if_neg (fun hm => by rw [hcond.mpr hm] at h; cases h)]
    simp

theorem dictInsert_keys_nodup {α : Type} (m : List (String × α)) (k : String)
    (v : α) (hnd : (m.map Prod.fst).Nodup) :
    ((dictInsert m k v).map Prod.fst).Nodup := by
  rw [dictInsert_map_fst]
  by_cases h : k ∈ m.map Prod.fst
  · rw [if_pos h]; exact hnd
  · rw [if_neg h]
    simp only [List.nodup_append, List.nodup_singleton]
    exact ⟨hnd, True.intro, by simpa using h⟩

theorem dictInsert_mem_keys {α : Type} (m : List (String × α)) (k r : String)
    (v : α) :
    r ∈ (dictInsert m k v).map Prod.fst ↔ r ∈ m.map Prod.fst ∨ r = k := by
  rw [dictInsert_map_fst]
  by_cases h : k ∈ m.map Prod.fst
  · rw [if_pos h]
    constructor
    · exact Or.inl
    · rintro (hm | he)
      · exact hm
      · exact he ▸ h
  · rw [if_neg h]; simp

/-- The fold of `_get_usage_report` over the requested IDs: starting
from a report whose keys are distinct and map to their computed row,
the final report again has distinct keys, its key set is the starting
key set together with the processed IDs, and every key maps to its
computed row. -/
theorem usage_foldl_spec (components : List (String × ComponentConfig))
    (cs : ComputeService) :
    ∀ (ids : List String)
      (acc : List (String × List (String × List (String × Int)))),
      (acc.map Prod.fst).Nodup →
      (∀ r, r ∈ acc.map Prod.fst →
        acc.lookup r = some (report_row components cs r)) →
      (((ids.foldl (fun report rid =>
            dictInsert report rid (report_row components cs rid)) acc).map
          Prod.fst).Nodup
       ∧ (∀ r, r ∈ (ids.foldl (fun report rid =>
            dictInsert report rid (report_row components cs rid)) acc).map
              Prod.fst ↔ r ∈ acc.map Prod.fst ∨ r ∈ ids)
       ∧ (∀ r, r ∈ (ids.foldl (fun report rid =>
            dictInsert report rid (report_row components cs rid)) acc).map
              Prod.fst →
          (ids.foldl (fun report rid =>
            dictInsert report rid (report_row components cs rid)) acc).lookup r
            = some (report_row components cs r))) := by
  intro ids
  induction ids with
  | nil =>
    intro acc hnd hold
    refine ⟨hnd, ?_, hold⟩
    intro r; simp
  | cons rid rest ih =>
    intro acc hnd hold
    have hnd' := dictInsert_keys_nodup acc rid (report_row components cs rid) hnd
    have hold' : ∀ r,
        r ∈ (dictInsert acc rid (report_row components cs rid)).map Prod.fst →
        (dictInsert acc rid (report_row components cs rid)).lookup r
          = some (report_row components cs r) := by
      intro r hrmem
      by_cases hr : r = rid
      · subst hr; exact dictInsert_lookup_self acc r (report_row components cs r)
      · rw [dictInsert_lookup_ne acc rid r (report_row components cs rid) hr]
        rcases (dictInsert_mem_keys acc rid r
            (report_row components cs rid)).mp hrmem with hm | he
        · exact hold r hm
        · exact absurd he hr
    rcases ih (dictInsert acc rid (report_row components cs rid)) hnd' hold'
      with ⟨h1, h2, h3⟩
    refine ⟨h1, ?_, h3⟩
    intro r
    rw [List.foldl_cons]
    rw [h2 r, dictInsert_mem_keys]
    simp only [List.mem_cons]
    tauto

/-- C1: `_get_usage_report` returns a report with exactly one entry per
requested backend ID — its keys are exactly the (distinct) requested
IDs, never fewer — each under the single key `"TOTAL_ACCOUNT_USAGE"`;
an ID whose instance fetch raises gets the all-zero mapping over every
configured component, and an ID whose fetch succeeds gets each
component value `spec.get(k, instance.get(k, 0))` floor-divided by
`max(unit_factor, 1)`. -/
theorem backend_usage_one_row_per_id
    (components : List (String × ComponentConfig)) (cs : ComputeService)
    (ids : List String) :
    ((backend_get_usage_report components cs ids).map Prod.fst).Nodup
    ∧ (∀ rid, rid ∈ (backend_get_usage_report components cs ids).map Prod.fst
        ↔ rid ∈ ids)
    ∧ (∀ rid, rid ∈ ids → cs.fetchInstance rid = none →
        (backend_get_usage_report components cs ids).lookup rid
          = some [("TOTAL_ACCOUNT_USAGE",
              components.map (fun kc => (kc.1, (0 : Int))))])
    ∧ (∀ rid inst, rid ∈ ids → cs.fetchInstance rid = some inst →
        (backend_get_usage_report components cs ids).lookup rid
          = some [("TOTAL_ACCOUNT_USAGE",
              components.map (fun kc =>
                (kc.1, Int.fdiv (instGet inst kc.1)
                  (max (kc.2.unit_factor.getD 1) 1))))]) := by
  unfold backend_get_usage_report
  rcases usage_foldl_spec components cs ids [] (by simp)
    (by intro r hr; simp at hr) with ⟨h1, h2, h3⟩
  have hmem : ∀ r, r ∈ (ids.foldl (fun report rid =>
      dictInsert report rid (report_row components cs rid)) []).map Prod.fst
      ↔ r ∈ ids := by
    intro r
    rw [h2 r]
    simp
  refine ⟨h1, hmem, ?_, ?_⟩
  · intro rid hin hfetch
    rw [h3 rid ((hmem rid).mpr hin)]
    simp [report_row, hfetch, zero_usage_row]
  · intro rid inst hin hfetch
    rw [h3 rid ((hmem rid).mpr hin)]
    simp [report_row, hfetch, backend_usage_row, usage_component_value,
      ComponentConfig.factor]

/-- Witness for C1: the spec example — `["a", "b"]` where `"a"` resolves
to `{"spec": {"cpu": 4, "memory": 8192, "storage": 100}}` with
`memory.unit_factor = 1024` and `"b"` raises — yields two rows, `"a"`
with memory `8192 // 1024 = 8` and `"b"` all-zero. -/
theorem backend_usage_one_row_per_id_witness :
    (backend_get_usage_report demoComponents demoCompute ["a", "b"]).lookup "a"
      = some [("TOTAL_ACCOUNT_USAGE",
          [("cpu", 4), ("memory", 8), ("storage", 100)])]
    ∧ (backend_get_usage_report demoComponents demoCompute ["a", "b"]).lookup "b"
      = some [("TOTAL_ACCOUNT_USAGE",
          [("cpu", 0), ("memory", 0), ("storage", 0)])] := by
  have ha := (backend_usage_one_row_per_id demoComponents demoCompute
    ["a", "b"]).2.2.2 "a" demoInstA (by decide) rfl
  have hb := (backend_usage_one_row_per_id demoComponents demoCompute
    ["a", "b"]).2.2.1 "b" (by decide) rfl
  rw [ha, hb]
  constructor <;> rfl

/-! ### Lemmas about the identity helpers, towards C5 -/

theorem isPrefixOf_self (l : List Char) : l.isPrefixOf l = true := by
  induction l with
  | nil => rfl
  | cons a t ih => simp [List.isPrefixOf, ih]

theorem isSuffixOf_self (l : List Char) : l.isSuffixOf l = true := by
  unfold List.isSuffixOf
  exact isPrefixOf_self l.reverse

theorem strEndsWith_self (s : String) : strEndsWith s s = true :=
  isSuffixOf_self s.data

/-- `_find_user_by_username` only looks at the user list and the
list-users failure flag. -/
theorem find_user_congr (s s1 : IdServer) (username : String)
    (hu : s1.users = s.users) (hf : s1.failListUsers = s.failListUsers) :
    find_user_by_username s1 username = find_user_by_username s username := by
  unfold find_user_by_username listOrgUsers
  rw [hu, hf]

/-- `update_group` preserves group names, so `_find_project_group`
finds the updated image of the group it found before. -/
theorem find_group_update (groups : List Group) (gid : String)
    (ids : List String) (rid : String) :
    (groups.map
        (fun g => if g.id == gid then { g with userIds := ids } else g)).find?
        (fun g => strEndsWith g.name rid)
      = (groups.find? (fun g => strEndsWith g.name rid)).map
          (fun g => if g.id == gid then { g with userIds := ids } else g) := by
  have hp : ((fun g => strEndsWith g.name rid) ∘ (fun (g : Group) =>
      if g.id == gid then { g with userIds := ids } else g))
      = (fun (g : Group) => strEndsWith g.name rid) := by
    funext g
    by_cases h : (g.id == gid) = true
    · rw [Function.comp_apply, if_pos h]
    · rw [Function.comp_apply, if_neg h]
  rw [List.find?_map, hp]

/-- When the group-level identity calls are healthy, the second half of
`create_association` succeeds, leaves the user list and failure flags
unchanged, and afterwards the project group is found and contains the
user id. -/
theorem with_user_ok (gg : String) (s : IdServer) (u : User)
    (username rid : String) (calls : List IdCall)
    (hlg : s.failListGroups = false) (hcg : s.failCreateGroup = false)
    (hug : s.failUpdateGroup = false) :
    ∃ s1 tail,
      create_association_with_user gg s u username rid calls
        = .ok (username, s1, calls ++ tail)
      ∧ s1.users = s.users
      ∧ s1.failListUsers = s.failListUsers
      ∧ s1.failCreateUser = s.failCreateUser
      ∧ s1.failListGroups = s.failListGroups
      ∧ s1.failCreateGroup = s.failCreateGroup
      ∧ s1.failUpdateGroup = s.failUpdateGroup
      ∧ s1.failGetUser = s.failGetUser
      ∧ ∃ g, find_project_group s1 rid = some g
          ∧ g.userIds.contains u.id = true := by
  cases hfg : find_project_group s rid with
  | none =>
    have hfind : s.groups.find? (fun g => strEndsWith g.name rid) = none := by
      simpa [find_project_group, listGroupsOp, hlg] using hfg
    refine ⟨{ s with groups := s.groups ++ [⟨gg, rid, [u.id]⟩] },
      [IdCall.listGroups, IdCall.createGroup], ?_, rfl, rfl, rfl, rfl, rfl,
      rfl, rfl, ⟨gg, rid, [u.id]⟩, ?_, ?_⟩
    · simp [create_association_with_user, hfg, createGroupOp, hcg]
    · simp [find_project_group, listGroupsOp, hlg, List.find?_append, hfind,
        strEndsWith_self]
    · simp
  | some g =>
    cases hc : g.userIds.contains u.id with
    | true =>
      refine ⟨s, [IdCall.listGroups], ?_, rfl, rfl, rfl, rfl, rfl, rfl, rfl,
        g, hfg, hc⟩
      simp only [create_association_with_user, hfg]
      rw [if_pos hc]
    | false =>
      have hfind : s.groups.find? (fun g => strEndsWith g.name rid) = some g := by
        simpa [find_project_group, listGroupsOp, hlg] using hfg
      refine ⟨{ s with
            groups := s.groups.map (fun g2 =>
              if g2.id == g.id then { g2 with userIds := g.userIds ++ [u.id] }
              else g2) },
        [IdCall.listGroups, IdCall.updateGroup], ?_, rfl, rfl, rfl, rfl, rfl,
        rfl, rfl, { g with userIds := g.userIds ++ [u.id] }, ?_, ?_⟩
      · simp only [create_association_with_user, hfg]
        rw [if_neg (by rw [hc]; exact Bool.false_ne_true)]
        simp [updateGroupOp, hug]
      · simp [find_project_group, listGroupsOp, hlg]
        have hp : ((fun g => strEndsWith g.name rid) ∘ (fun (g2 : Group) =>
            if g2.id = g.id then { g2 with userIds := g.userIds ++ [u.id] }
            else g2))
            = (fun (g2 : Group) => strEndsWith g2.name rid) := by
          funext g2
          by_cases h : g2.id = g.id
          · rw [Function.comp_apply, if_pos h]
          · rw [Function.comp_apply, if_neg h]
        exact ⟨g, by rw [hp]; exact hfind, by simp⟩
      · simp

/-- A `create_association` call that finds the user and finds the
project group already containing it changes nothing and performs only
the two list calls. -/
theorem second_call_noop (gu2 gg2 : String) (s1 : IdServer)
    (username rid : String) (u : User) (g : Group)
    (hfu1 : find_user_by_username s1 username = some u)
    (hfg : find_project_group s1 rid = some g)
    (hcont : g.userIds.contains u.id = true) :
    create_association gu2 gg2 (some s1) username rid
      = .ok (username, some s1, [IdCall.listUsers, IdCall.listGroups]) := by
  simp only [create_association, hfu1, create_association_with_user, hfg]
  rw [if_pos hcont]
  rfl

/-- C5: `create_association` is idempotent — after any successful call
(identity configured, all provider calls healthy), a second call with
the same username and resource ID finds the user already present in the
project group, performs no user/group creation and no group update
(only the two list calls), and leaves the identity state — in
particular the group membership list — exactly as it was, so the user
ID is not duplicated. -/
theorem create_association_idempotent (gu1 gg1 gu2 gg2 : String)
    (s : IdServer) (username rid : String)
    (h1 : s.failListUsers = false) (h2 : s.failCreateUser = false)
    (h3 : s.failListGroups = false) (h4 : s.failCreateGroup = false)
    (h5 : s.failUpdateGroup = false)
    (r1 : String) (s1 : IdServer) (calls1 : List IdCall)
    (hfirst : create_association gu1 gg1 (some s) username rid
      = .ok (r1, some s1, calls1)) :
    create_association gu2 gg2 (some s1) username rid
      = .ok (username, some s1, [IdCall.listUsers, IdCall.listGroups])
    ∧ ∃ u g, find_user_by_username s1 username = some u
        ∧ find_project_group s1 rid = some g
        ∧ g.userIds.contains u.id = true := by
  cases hfu : find_user_by_username s username with
  | some u =>
    rcases with_user_ok gg1 s u username rid [IdCall.listUsers] h3 h4 h5 with
      ⟨s1', tail, heq, husers, hf1, _, _, _, _, _, g, hfg, hcont⟩
    simp only [create_association, hfu, heq] at hfirst
    simp only [Except.ok.injEq, Prod.mk.injEq, Option.some.injEq] at hfirst
    obtain ⟨-, hs1, -⟩ := hfirst
    subst hs1
    have hfu1 : find_user_by_username s1' username = some u := by
      rw [find_user_congr s s1' username husers hf1]
      exact hfu
    exact ⟨second_call_noop gu2 gg2 s1' username rid u g hfu1 hfg hcont,
      u, g, hfu1, hfg, hcont⟩
  | none =>
    have hcu : createUserOp s gu1 username
        = .ok (⟨gu1, username⟩,
            { s with users := s.users ++ [⟨gu1, username⟩] }) := by
      simp [createUserOp, h2]
    rcases with_user_ok gg1 { s with users := s.users ++ [⟨gu1, username⟩] }
        ⟨gu1, username⟩ username rid [IdCall.listUsers, IdCall.createUser]
        h3 h4 h5 with
      ⟨s1', tail, heq, husers, hf1, _, _, _, _, _, g, hfg, hcont⟩
    simp only [create_association, hfu, hcu, heq] at hfirst
    simp only [Except.ok.injEq, Prod.mk.injEq, Option.some.injEq] at hfirst
    obtain ⟨-, hs1, -⟩ := hfirst
    subst hs1
    have hnone : s.users.find? (fun u2 => u2.subject == username) = none := by
      simpa [find_user_by_username, listOrgUsers, h1] using hfu
    have hfu1 : find_user_by_username s1' username = some ⟨gu1, username⟩ := by
      rw [find_user_congr { s with users := s.users ++ [⟨gu1, username⟩] } s1'
        username husers hf1]
      simp [find_user_by_username, listOrgUsers, h1, List.find?_append, hnone]
    exact ⟨second_call_noop gu2 gg2 s1' username rid ⟨gu1, username⟩ g
      hfu1 hfg hcont, ⟨gu1, username⟩, g, hfu1, hfg, hcont⟩

/-- Witness for C5: on a server with the user present and no group, the
first call creates the group; the second call changes nothing and
performs only the two list calls. -/
theorem create_association_idempotent_witness :
    create_association "u2" "g2" (some demoIdServerAfter) "alice" "res-1"
      = .ok ("alice", some demoIdServerAfter,
          [IdCall.listUsers, IdCall.listGroups]) :=
  (create_association_idempotent "u9" "g1" "u2" "g2" demoIdServer
    "alice" "res-1" rfl rfl rfl rfl rfl "alice" demoIdServerAfter
    [IdCall.listUsers, IdCall.listGroups, IdCall.createGroup] rfl).1

/-- Counterexample to C6 as stated: `create_association` does not catch
the API error of a failing `create_user` call — on a configured
identity service with no matching user and a failing user-creation
endpoint, the call propagates `NscaleAPIError` to the caller instead of
returning its sentinel. -/
theorem create_association_raises_counterexample :
    create_association "uid-1" "gid-1" (some cexCreateServer) "alice" "res-1"
      = .error (.nscaleAPI apiFailMsg) := rfl

/-- C6 (amended): `get_association` catches the failures of both of its
underlying list calls and returns `None`, never raising;
`create_association` and `delete_association` swallow lookup failures
via the helpers — a failing user list still lets `create_association`
complete through the creation path, and makes `delete_association`
return its sentinel, as does a failing group list — but the mutating
identity calls are not caught: a failing `create_user`, a failing
`create_group`, and a failing `update_group` inside
`create_association`, and a failing `update_group` inside
`delete_association`, each propagate the API error to the caller. -/
theorem association_error_policy (s : IdServer) (u r gu gg : String) :
    (s.failListUsers = true →
      get_association (some s) u r = (none, [IdCall.listUsers]))
    ∧ (∀ usr, s.failListGroups = true →
        find_user_by_username s u = some usr →
        get_association (some s) u r
          = (none, [IdCall.listUsers, IdCall.listGroups]))
    ∧ (s.failListUsers = true → s.failCreateUser = true →
        create_association gu gg (some s) u r = .error (.nscaleAPI apiFailMsg))
    ∧ (∀ usr, find_user_by_username s u = some usr →
        find_project_group s r = none →
        s.failCreateGroup = true →
        create_association gu gg (some s) u r = .error (.nscaleAPI apiFailMsg))
    ∧ (∀ usr g, find_user_by_username s u = some usr →
        find_project_group s r = some g →
        g.userIds.contains usr.id = false →
        s.failUpdateGroup = true →
        create_association gu gg (some s) u r = .error (.nscaleAPI apiFailMsg))
    ∧ (s.failListUsers = true → s.failCreateUser = false →
        s.failListGroups = false → s.failCreateGroup = false →
        s.failUpdateGroup = false →
        ∃ s1 calls, create_association gu gg (some s) u r
          = .ok (u, some s1, calls))
    ∧ (s.failListUsers = true →
        delete_association (some s) u r = .ok (u, some s, [IdCall.listUsers]))
    ∧ (∀ usr, s.failListGroups = true →
        find_user_by_username s u = some usr →
        delete_association (some s) u r
          = .ok (u, some s, [IdCall.listUsers, IdCall.listGroups]))
    ∧ (∀ usr g, find_user_by_username s u = some usr →
        find_project_group s r = some g →
        g.userIds.contains usr.id = true →
        s.failUpdateGroup = true →
        delete_association (some s) u r = .error (.nscaleAPI apiFailMsg)) := by
  refine ⟨?_, ?_, ?_, ?_, ?_, ?_, ?_, ?_, ?_⟩
  · intro hl
    simp [get_association, find_user_by_username, listOrgUsers, hl]
  · intro usr hlg hfu
    simp [get_association, hfu, find_project_group, listGroupsOp, hlg]
  · intro hl hc
    simp [create_association, find_user_by_username, listOrgUsers, hl,
      createUserOp, hc]
  · intro usr hfu hfg hcg
    simp only [create_association, hfu, create_association_with_user, hfg]
    simp [createGroupOp, hcg]
  · intro usr g hfu hfg hc hug
    simp only [create_association, hfu, create_association_with_user, hfg]
    rw [if_neg (by rw [hc]; exact Bool.false_ne_true)]
    simp [updateGroupOp, hug]
  · intro hl hcu hlg hcg hug
    have hfu : find_user_by_username s u = none := by
      simp [find_user_by_username, listOrgUsers, hl]
    have hcuop : createUserOp s gu u
        = .ok (⟨gu, u⟩, { s with users := s.users ++ [⟨gu, u⟩] }) := by
      simp [createUserOp, hcu]
    rcases with_user_ok gg { s with users := s.users ++ [⟨gu, u⟩] } ⟨gu, u⟩
        u r [IdCall.listUsers, IdCall.createUser] hlg hcg hug with
      ⟨s1, tail, heq, -⟩
    refine ⟨s1, [IdCall.listUsers, IdCall.createUser] ++ tail, ?_⟩
    simp only [create_association, hfu, hcuop, heq]
  · intro hl
    simp [delete_association, find_user_by_username, listOrgUsers, hl]
  · intro usr hlg hfu
    simp [delete_association, hfu, find_project_group, listGroupsOp, hlg]
  · intro usr g hfu hfg hcont hug
    simp only [delete_association, hfu, hfg]
    rw [if_pos hcont]
    simp [updateGroupOp, hug]

/-- Witness for the amended C6, one concrete server per asserted
behaviour: a failing user list degrades `get_association` and
`delete_association` and is survived by `create_association`; a failing
group list degrades both lookups; failing `create_user`,
`create_group`, and `update_group` each make `create_association`
raise, and a failing `update_group` makes `delete_association` raise. -/
theorem association_error_policy_witness :
    get_association (some cexListFailServer) "alice" "res-1"
        = (none, [IdCall.listUsers])
    ∧ get_association (some cexGroupsFailServer) "alice" "res-1"
        = (none, [IdCall.listUsers, IdCall.listGroups])
    ∧ create_association "gu" "gg" (some cexListFailServer) "alice" "res-1"
        = .error (.nscaleAPI apiFailMsg)
    ∧ create_association "gu" "gg" (some cexCreateGroupFailServer)
        "alice" "res-1" = .error (.nscaleAPI apiFailMsg)
    ∧ create_association "gu" "gg" (some cexUpdateInCreateServer)
        "alice" "res-1" = .error (.nscaleAPI apiFailMsg)
    ∧ (∃ s1 calls, create_association "gu" "gg" (some cexLookupOnlyFailServer)
        "alice" "res-1" = .ok ("alice", some s1, calls))
    ∧ delete_association (some cexLookupOnlyFailServer) "alice" "res-1"
        = .ok ("alice", some cexLookupOnlyFailServer, [IdCall.listUsers])
    ∧ delete_association (some cexGroupsFailServer) "alice" "res-1"
        = .ok ("alice", some cexGroupsFailServer,
            [IdCall.listUsers, IdCall.listGroups])
    ∧ delete_association (some cexDeleteServer) "alice" "res-1"
        = .error (.nscaleAPI apiFailMsg) :=
  ⟨(association_error_policy cexListFailServer "alice" "res-1" "gu" "gg").1 rfl,
   (association_error_policy cexGroupsFailServer "alice" "res-1" "gu" "gg").2.1
     ⟨"u1", "alice"⟩ rfl rfl,
   (association_error_policy cexListFailServer "alice" "res-1" "gu" "gg").2.2.1
     rfl rfl,
   (association_error_policy cexCreateGroupFailServer "alice" "res-1" "gu"
     "gg").2.2.2.1 ⟨"u1", "alice"⟩ rfl rfl rfl,
   (association_error_policy cexUpdateInCreateServer "alice" "res-1" "gu"
     "gg").2.2.2.2.1 ⟨"u1", "alice"⟩ ⟨"g1", "proj-res-1", ["u2"]⟩ rfl rfl rfl rfl,
   (association_error_policy cexLookupOnlyFailServer "alice" "res-1" "gu"
     "gg").2.2.2.2.2.1 rfl rfl rfl rfl rfl,
   (association_error_policy cexLookupOnlyFailServer "alice" "res-1" "gu"
     "gg").2.2.2.2.2.2.1 rfl,
   (association_error_policy cexGroupsFailServer "alice" "res-1" "gu"
     "gg").2.2.2.2.2.2.2.1 ⟨"u1", "alice"⟩ rfl rfl,
   (association_error_policy cexDeleteServer "alice" "res-1" "gu"
     "gg").2.2.2.2.2.2.2.2 ⟨"u1", "alice"⟩ ⟨"g1", "proj-res-1", ["u1"]⟩
     rfl rfl rfl rfl⟩

end Nscale
